import Mathlib

/-!
Verification of the lakesql authorization engine: a shallow embedding of the
core crates (lakesql-core types, the lakesql-emulator permission store,
evaluation engine and row-filter expression evaluator), with theorems settling
the specification claims about grant/revoke semantics, resource coverage,
principal resolution, and the fail-closed row-filter evaluation.

Strings are embedded as lists of characters (`Str`); the Rust code indexes
strings by bytes, which coincides with character indexing on the ASCII data
involved here.  Rust `HashMap`/`HashSet` values are embedded as association
lists / lists, faithful up to lookup and membership (the code never depends on
iteration order of these maps).  Fallible Rust operations return `EvalResult`,
which distinguishes recoverable `anyhow` errors (`fail`, caught by
`evaluate_row_filter` and turned into a deny) from Rust panics (`panicked`,
which propagate out of `check_permission`); the one reachable panic is the
string slice `value[1..value.len()-1]` in `resolve_value`, taken when the
quoted operand is a single quote character.
-/

namespace LakeSql

/-- Character-list strings; the Rust code slices by byte index, which for the
ASCII strings manipulated here equals index in the character list. -/
abbrev Str := List Char

/-- The character list of a Lean string literal. -/
def strData (s : String) : Str := s.data

/-- `l.starts_with(p)` for string patterns (Rust `str::starts_with`). -/
def startsWithStr (l p : Str) : Bool := decide (p <+: l)

/-- `l.ends_with(p)` for string patterns (Rust `str::ends_with`). -/
def endsWithStr (l p : Str) : Bool := decide (p <:+ l)

/-- `l.starts_with(c)` for a single-character pattern. -/
def startsWithChar (l : Str) (c : Char) : Bool :=
  match l with
  | [] => false
  | c2 :: _ => decide (c2 = c)

/-- `l.ends_with(c)` for a single-character pattern. -/
def endsWithChar (l : Str) (c : Char) : Bool := startsWithChar l.reverse c

/-- Rust `str::trim`: remove leading and trailing whitespace. -/
def trimStr (l : Str) : Str :=
  ((l.dropWhile Char.isWhitespace).reverse.dropWhile Char.isWhitespace).reverse

/-- Rust `str::trim_matches(c)`: remove all leading and trailing occurrences
of the character `c`. -/
def trimMatchesChar (l : Str) (c : Char) : Str :=
  ((l.dropWhile (fun x => decide (x = c))).reverse.dropWhile
    (fun x => decide (x = c))).reverse

/-- Rust `str::to_uppercase` (character-wise; the ASCII fragment relevant
here has no multi-character expansions). -/
def toUpperStr (l : Str) : Str := l.map Char.toUpper

/-- Rust `str::find(sub)`: index of the first occurrence of `sub`. -/
def findSub : Str → Str → Option Nat
  | [], sub => if sub.isEmpty then some 0 else none
  | c :: rest, sub =>
    if startsWithStr (c :: rest) sub then some 0
    else (findSub rest sub).map (· + 1)

/-- Rust `str::contains(sub)`. -/
def containsSub (l sub : Str) : Bool := (findSub l sub).isSome

/-- Fuelled worker for `splitOnSub`; fuel bounds the number of separator
occurrences, which is at most the length of the string. -/
def splitOnSubF : Nat → Str → Str → List Str
  | 0, l, _ => [l]
  | fuel + 1, l, sub =>
    match findSub l sub with
    | none => [l]
    | some i => l.take i :: splitOnSubF fuel (l.drop (i + sub.length)) sub

/-- Rust `str::split(sub)` for a non-empty separator: the pieces between
the non-overlapping occurrences of `sub`, left to right. -/
def splitOnSub (l sub : Str) : List Str := splitOnSubF l.length l sub

/-- Association-list lookup, embedding `HashMap::get`. -/
def mapGet {κ ν : Type} [DecidableEq κ] : List (κ × ν) → κ → Option ν
  | [], _ => none
  | (k, v) :: rest, key => if k = key then some v else mapGet rest key

/-- Association-list insert, embedding `HashMap::insert` (replaces any
existing binding of the key). -/
def mapInsert {κ ν : Type} [DecidableEq κ] (m : List (κ × ν)) (k : κ) (v : ν) :
    List (κ × ν) :=
  (k, v) :: m.filter (fun kv => decide (kv.1 ≠ k))

/-- `Principal` from lakesql-core/src/types.rs. -/
inductive Principal where
  | User (id : String)
  | Role (name : String)
  | SamlGroup (name : String)
  | ExternalAccount (id : String)
  | TaggedPrincipal (tag_key : String) (tag_values : List String)
deriving DecidableEq, Repr

/-- `Resource` from lakesql-core/src/types.rs. -/
inductive Resource where
  | Database (name : String)
  | Table (database table : String) (columns : Option (List String))
  | DataLocation (path : String)
  | TaggedResource (tag_conditions : List (String × List String))
deriving DecidableEq, Repr

/-- `Action` from lakesql-core/src/types.rs. -/
inductive Action where
  | Select
  | Insert
  | Update
  | Delete
  | CreateTable
  | DropTable
  | AlterTable
  | Describe
  | DataLocationAccess
  | GrantWithGrantOption
deriving DecidableEq, Repr

/-- `RowFilter` from lakesql-core/src/types.rs. -/
structure RowFilter where
  expression : String
  session_context : Option (List (String × String))
deriving DecidableEq, Repr

/-- `Permission` from lakesql-core/src/types.rs. -/
structure Permission where
  principal : Principal
  resource : Resource
  actions : List Action
  grant_option : Bool
  row_filter : Option RowFilter
deriving DecidableEq, Repr

/-- `LfTag` from lakesql-core/src/types.rs. -/
structure LfTag where
  key : String
  values : List String
  description : Option String
deriving DecidableEq, Repr

/-- `Principal::matches` (lakesql-core/src/types.rs): per-variant value
equality; tagged principals and cross-kind pairs never match. -/
def Principal.matches : Principal → Principal → Bool
  | .User a, .User b => decide (a = b)
  | .Role a, .Role b => decide (a = b)
  | .SamlGroup a, .SamlGroup b => decide (a = b)
  | .ExternalAccount a, .ExternalAccount b => decide (a = b)
  | _, _ => false

/-- Rust `String::starts_with` on whole strings (used by the `DataLocation`
arm of `Resource::is_covered_by`). -/
def strStartsWith (s p : String) : Bool := decide (p.data <+: s.data)

/-- `Resource::is_covered_by` (lakesql-core/src/types.rs), arms in source
order. -/
def Resource.is_covered_by : Resource → Resource → Bool
  | .Table db1 t1 _, .Table db2 t2 _ => decide (db1 = db2) && decide (t1 = t2)
  | .Table db1 _ _, .Database db2 => decide (db1 = db2)
  | .Database db1, .Database db2 => decide (db1 = db2)
  | .DataLocation p1, .DataLocation p2 => strStartsWith p1 p2 || decide (p1 = p2)
  | _, _ => false

/-- Errors produced by the expression evaluator (the `anyhow!` sites in
lakesql-emulator/src/expression.rs). -/
inductive EvalErr where
  | missingContextKey (key : Str)
  | cannotEvaluate (expr : Str)
  | cannotEvaluateContextExpr (expr : Str)
deriving DecidableEq, Repr

/-- Result of a fallible evaluation step: `ok`, a recoverable `anyhow` error
(`fail`), or a Rust panic (`panicked`).  Both non-`ok` outcomes propagate
through the evaluator; only `fail` is caught by `evaluate_row_filter`. -/
inductive EvalResult (α : Type) where
  | ok (a : α)
  | fail (e : EvalErr)
  | panicked
deriving DecidableEq, Repr

/-- `ExpressionEvaluator` state (lakesql-emulator/src/expression.rs). -/
structure ExpressionEvaluator where
  session_context : List (Str × Str)
  row_data : List (Str × Str)
deriving DecidableEq, Repr

/-- `ExpressionEvaluator::get_session_context`: missing key is a hard
(recoverable) error. -/
def ExpressionEvaluator.get_session_context (ev : ExpressionEvaluator)
    (key : Str) : EvalResult Str :=
  match mapGet ev.session_context key with
  | some v => .ok v
  | none => .fail (.missingContextKey key)

/-- `ExpressionEvaluator::resolve_value`.  The quoted-literal branch embeds
the Rust slice `value[1..value.len()-1]`, which panics when the operand is a
single quote character (range `1..0`); the `SESSION_CONTEXT` branch's slice
`value[16..value.len()-1]` cannot panic because the prefix/suffix tests force
length at least 17.  The numeric-literal branch and the final branch of the
source both return the text verbatim, so they are embedded as one case. -/
def ExpressionEvaluator.resolve_value (ev : ExpressionEvaluator)
    (value0 : Str) : EvalResult Str :=
  let value := trimStr value0
  if (startsWithChar value '\x27' && endsWithChar value '\x27') ||
      (startsWithChar value '\x22' && endsWithChar value '\x22') then
    if decide (2 ≤ value.length) then .ok ((value.drop 1).dropLast)
    else .panicked
  else if startsWithStr value (strData "SESSION_CONTEXT(") &&
      endsWithStr value (strData ")") then
    let key := (value.drop 16).dropLast
    let key := trimMatchesChar (trimMatchesChar key '\x27') '\x22'
    ev.get_session_context key
  else
    match mapGet ev.row_data value with
    | some rowValue => .ok rowValue
    | none => .ok value

/-- `ExpressionEvaluator::evaluate_equals`. -/
def ExpressionEvaluator.evaluate_equals (ev : ExpressionEvaluator)
    (left right : Str) : EvalResult Bool :=
  match ev.resolve_value left with
  | .fail e => .fail e
  | .panicked => .panicked
  | .ok leftValue =>
    match ev.resolve_value right with
    | .fail e => .fail e
    | .panicked => .panicked
    | .ok rightValue => .ok (decide (leftValue = rightValue))

/-- `ExpressionEvaluator::split_comparison`: split at the first occurrence of
the operator. -/
def split_comparison (expr op : Str) : Option (Str × Str) :=
  match findSub expr op with
  | some pos => some (expr.take pos, expr.drop (pos + op.length))
  | none => none

/-- `ExpressionEvaluator::evaluate_session_context_expression`. -/
def ExpressionEvaluator.evaluate_session_context_expression
    (ev : ExpressionEvaluator) (expr : Str) : EvalResult Bool :=
  match split_comparison expr (strData "=") with
  | some (l, r) => ev.evaluate_equals (trimStr l) (trimStr r)
  | none => .fail (.cannotEvaluateContextExpr expr)

/-- The loop body of `ExpressionEvaluator::evaluate_logical_and`: evaluate the
parts left to right, short-circuiting to `false`; `?` propagates errors. -/
def evalAndList (eval1 : Str → EvalResult Bool) : List Str → EvalResult Bool
  | [] => .ok true
  | p :: ps =>
    match eval1 (trimStr p) with
    | .ok true => evalAndList eval1 ps
    | .ok false => .ok false
    | .fail e => .fail e
    | .panicked => .panicked

/-- The loop body of `ExpressionEvaluator::evaluate_logical_or`: evaluate the
parts left to right, short-circuiting to `true`; `?` propagates errors. -/
def evalOrList (eval1 : Str → EvalResult Bool) : List Str → EvalResult Bool
  | [] => .ok false
  | p :: ps =>
    match eval1 (trimStr p) with
    | .ok true => .ok true
    | .ok false => evalOrList eval1 ps
    | .fail e => .fail e
    | .panicked => .panicked

/-- `ExpressionEvaluator::evaluate_expression`, with explicit fuel for the
`AND`/`OR` recursion.  In the source every recursive call is on a split part,
whose length is smaller than the whole by at least the separator length, so
with fuel `expr.length + 1` (as passed by `evaluate_filter`) the fuel never
runs out and the embedding computes exactly what the source computes. -/
def ExpressionEvaluator.evaluate_expression (ev : ExpressionEvaluator) :
    Nat → Str → EvalResult Bool
  | 0, expr => .fail (.cannotEvaluate expr)
  | fuel + 1, expr0 =>
    let expr1 := trimStr expr0
    let expr :=
      if startsWithStr (toUpperStr expr1) (strData "WHERE ") then expr1.drop 6
      else expr1
    match split_comparison expr (strData "=") with
    | some (left, right) => ev.evaluate_equals (trimStr left) (trimStr right)
    | none =>
      match split_comparison expr (strData "!=") with
      | some (left, right) =>
        match ev.evaluate_equals (trimStr left) (trimStr right) with
        | .ok equals => .ok (!equals)
        | .fail e => .fail e
        | .panicked => .panicked
      | none =>
        if containsSub expr (strData "SESSION_CONTEXT") then
          ev.evaluate_session_context_expression expr
        else if containsSub expr (strData " AND ") then
          evalAndList (fun p => ev.evaluate_expression fuel p)
            (splitOnSub expr (strData " AND "))
        else if containsSub expr (strData " OR ") then
          evalOrList (fun p => ev.evaluate_expression fuel p)
            (splitOnSub expr (strData " OR "))
        else if decide (toUpperStr expr = strData "TRUE") then .ok true
        else if decide (toUpperStr expr = strData "FALSE") then .ok false
        else .fail (.cannotEvaluate expr)

/-- `ExpressionEvaluator::evaluate_filter`: evaluate the filter's expression
text (the filter's static `session_context` field is not consulted). -/
def ExpressionEvaluator.evaluate_filter (ev : ExpressionEvaluator)
    (rowFilter : RowFilter) : EvalResult Bool :=
  ev.evaluate_expression (rowFilter.expression.data.length + 1)
    rowFilter.expression.data

/-- `EmulatorState` (lakesql-emulator/src/lib.rs): permissions in insertion
order; roles, tags and session context as key/value maps. -/
structure EmulatorState where
  permissions : List Permission
  roles : List (String × List String)
  tags : List (String × LfTag)
  session_context : List (String × String)
deriving DecidableEq, Repr

/-- `EmulatorState::new`. -/
def EmulatorState.new : EmulatorState :=
  { permissions := [], roles := [], tags := [], session_context := [] }

/-- `EmulatorEngine::principal_matches` (lakesql-emulator/src/engine.rs),
arms in source order: exact per-variant matches, then the User-against-Role
membership rule, then the tagged-principal arms, then the catch-all. -/
def principal_matches (st : EmulatorState) :
    Principal → Principal → Bool
  | .User u1, .User u2 => decide (u1 = u2)
  | .Role r1, .Role r2 => decide (r1 = r2)
  | .SamlGroup g1, .SamlGroup g2 => decide (g1 = g2)
  | .ExternalAccount a1, .ExternalAccount a2 => decide (a1 = a2)
  | .User user, .Role role =>
    match mapGet st.roles role with
    | some members => members.any (fun m => decide (m = user))
    | none => false
  | .TaggedPrincipal _ _, _ => false
  | _, .TaggedPrincipal _ _ => false
  | _, _ => false

/-- `EmulatorEngine::create_sample_row_data` (lakesql-emulator/src/engine.rs):
the representative row for a resource. -/
def create_sample_row_data : Resource → List (String × String)
  | .Table database table _ =>
    if database = "sales" ∧ table = "orders" then
      [("region", "west"), ("department", "sales"),
       ("customer_id", "12345"), ("amount", "1000.00"), ("status", "active")]
    else if database = "hr" ∧ table = "employees" then
      [("department", "engineering"), ("manager", "john_doe"),
       ("level", "senior"), ("region", "west")]
    else if database = "finance" ∧ table = "transactions" then
      [("classification", "confidential"), ("department", "finance"),
       ("region", "east")]
    else
      [("region", "west"), ("department", "general")]
  | .Database name =>
    [("database_owner", "admin"), ("classification", "internal")] ++
      (if containsSub name.data (strData "finance") then
        [("department", "finance")]
      else [])
  | _ => [("access_level", "public")]

/-- Convert a `String`-keyed map into the character-list maps used by the
expression evaluator. -/
def toCharMap (m : List (String × String)) : List (Str × Str) :=
  m.map (fun kv => (kv.1.data, kv.2.data))

/-- `EmulatorEngine::evaluate_row_filter`: build an evaluator from the store's
session context and the representative row for the resource, then evaluate
the filter; a recoverable evaluation error denies access (`some false`),
while a panic propagates (`none`). -/
def evaluate_row_filter (st : EmulatorState) (row_filter : RowFilter)
    (resource : Resource) : Option Bool :=
  let ev : ExpressionEvaluator :=
    { session_context := toCharMap st.session_context
      row_data := toCharMap (create_sample_row_data resource) }
  match ev.evaluate_filter row_filter with
  | .ok result => some result
  | .fail _ => some false
  | .panicked => none

/-- `EmulatorEngine::matches_permission`: principal, action, resource and
row-filter tests in source order, short-circuiting at the first failure; the
row filter is evaluated only if the first three tests pass.  `none` is a
propagating panic. -/
def matches_permission (st : EmulatorState) (principal : Principal)
    (resource : Resource) (action : Action) (permission : Permission) :
    Option Bool :=
  if !(principal_matches st principal permission.principal) then some false
  else if !(permission.actions.any (fun a => decide (a = action))) then
    some false
  else if !(resource.is_covered_by permission.resource) then some false
  else
    match permission.row_filter with
    | some row_filter => evaluate_row_filter st row_filter resource
    | none => some true

/-- The scan of `EmulatorEngine::check_permission` over a permission list:
return `some true` at the first fully matching entry, `some false` when the
list is exhausted, and propagate a panic (`none`). -/
def check_permission_list (st : EmulatorState) (principal : Principal)
    (resource : Resource) (action : Action) : List Permission → Option Bool
  | [] => some false
  | permission :: rest =>
    match matches_permission st principal resource action permission with
    | some true => some true
    | some false => check_permission_list st principal resource action rest
    | none => none

/-- `EmulatorEngine::check_permission` (lakesql-emulator/src/engine.rs). -/
def check_permission (st : EmulatorState) (principal : Principal)
    (resource : Resource) (action : Action) : Option Bool :=
  check_permission_list st principal resource action st.permissions

/-- The scan of `EmulatorEngine::check_permission_with_reason`, accumulating
per-entry traces (principal/action/resource/row-filter match booleans).  The
row filter of every entry is evaluated unconditionally (the source computes
`row_filter_match` before the conjunction), so a panicking filter aborts the
scan (`none`) even on entries whose principal does not match. -/
def check_permission_with_reason_list (st : EmulatorState)
    (principal : Principal) (resource : Resource) (action : Action) :
    List Permission → List (Bool × Bool × Bool × Bool) →
    Option (Bool × List (Bool × Bool × Bool × Bool))
  | [], reasons => some (false, reasons.reverse)
  | permission :: rest, reasons =>
    let principal_match := principal_matches st principal permission.principal
    let action_match := permission.actions.any (fun a => decide (a = action))
    let resource_match := resource.is_covered_by permission.resource
    match
      (match permission.row_filter with
       | some f => evaluate_row_filter st f resource
       | none => some true) with
    | none => none
    | some row_filter_match =>
      let reasons :=
        (principal_match, action_match, resource_match, row_filter_match)
          :: reasons
      if principal_match && action_match && resource_match &&
          row_filter_match then
        some (true, reasons.reverse)
      else
        check_permission_with_reason_list st principal resource action rest
          reasons

/-- `EmulatorEngine::check_permission_with_reason`
(lakesql-emulator/src/engine.rs); the trace is embedded as the tuple of the
four per-entry match booleans rather than the formatted string. -/
def check_permission_with_reason (st : EmulatorState) (principal : Principal)
    (resource : Resource) (action : Action) :
    Option (Bool × List (Bool × Bool × Bool × Bool)) :=
  check_permission_with_reason_list st principal resource action
    st.permissions []

/-- `EmulatorBackend::grant_permissions` (lakesql-emulator/src/lib.rs):
remove every entry with the same (principal, resource) pair, then push the
new permission at the end. -/
def grant_permissions (st : EmulatorState) (permission : Permission) :
    EmulatorState :=
  { st with permissions :=
      (st.permissions.filter (fun p =>
        !(decide (p.principal = permission.principal) &&
          decide (p.resource = permission.resource)))) ++ [permission] }

/-- `EmulatorBackend::revoke_permissions` (lakesql-emulator/src/lib.rs):
remove every entry with the same (principal, resource) pair whose action set
intersects the given actions. -/
def revoke_permissions (st : EmulatorState) (principal : Principal)
    (resource : Resource) (actions : List Action) : EmulatorState :=
  { st with permissions :=
      st.permissions.filter (fun p =>
        !(decide (p.principal = principal) &&
          decide (p.resource = resource) &&
          actions.any (fun a => p.actions.any (fun b => decide (b = a))))) }

/-- `EmulatorBackend::list_permissions_for_principal`
(lakesql-emulator/src/lib.rs): filter by `Principal::matches` on the stored
principal — exact per-variant equality, no role indirection. -/
def list_permissions_for_principal (st : EmulatorState)
    (principal : Principal) : List Permission :=
  st.permissions.filter (fun p => p.principal.matches principal)

/-- The `CreateRole` arm of `EmulatorBackend::execute_ddl_direct`:
`roles.insert(name, HashSet::new())`. -/
def create_role (st : EmulatorState) (name : String) : EmulatorState :=
  { st with roles := mapInsert st.roles name [] }

/-- `EmulatorEngine::add_user_to_role` (lakesql-emulator/src/engine.rs):
insert the user into the role's member set, or fail if the role does not
exist. -/
def add_user_to_role (st : EmulatorState) (user role : String) :
    Except String EmulatorState :=
  match mapGet st.roles role with
  | some members =>
    .ok { st with roles :=
            (mapInsert st.roles role
              (if members.any (fun m => decide (m = user)) then members
               else user :: members)) }
  | none => .error "Role does not exist"

/-- `PermissionEngine` state (lakesql-core/src/permissions.rs). -/
structure PermissionEngine where
  permissions : List Permission
  tags : List (String × LfTag)
  session_context : List (String × String)
deriving DecidableEq, Repr

/-- `PermissionEngine::grant_permission` (lakesql-core/src/permissions.rs):
same replace-then-push as the emulator backend. -/
def PermissionEngine.grant_permission (eng : PermissionEngine)
    (permission : Permission) : PermissionEngine :=
  { eng with permissions :=
      (eng.permissions.filter (fun p =>
        !(decide (p.principal = permission.principal) &&
          decide (p.resource = permission.resource)))) ++ [permission] }

/-- `PermissionEngine::revoke_permission` (lakesql-core/src/permissions.rs):
same whole-entry removal as the emulator backend. -/
def PermissionEngine.revoke_permission (eng : PermissionEngine)
    (principal : Principal) (resource : Resource) (actions : List Action) :
    PermissionEngine :=
  { eng with permissions :=
      eng.permissions.filter (fun p =>
        !(decide (p.principal = principal) &&
          decide (p.resource = resource) &&
          actions.any (fun a => p.actions.any (fun b => decide (b = a))))) }

/-- The table resource `hr.employees` (no column subset). -/
def hrEmployees : Resource := .Table "hr" "employees" none

/-- The table resource `sales.orders` (no column subset). -/
def salesOrders : Resource := .Table "sales" "orders" none

/-- Role-indirection scenario: the store after `createRole("eng")` and
`addMember("eng", "bob")` on an empty store. -/
def engBobState : EmulatorState :=
  { permissions := [], roles := [("eng", ["bob"])], tags := [],
    session_context := [] }

/-- Role-indirection scenario: `Select` on `hr.employees` granted to
`Role("eng")`. -/
def engPerm : Permission :=
  { principal := .Role "eng", resource := hrEmployees, actions := [.Select],
    grant_option := false, row_filter := none }

/-- Role-indirection scenario: the store after the grant. -/
def engGrantedState : EmulatorState := grant_permissions engBobState engPerm

/-- Row-filter scenario: `Select` on `sales.orders` granted to `Role("mgr")`
with filter `region = SESSION_CONTEXT('user_region')`. -/
def mgrPerm : Permission :=
  { principal := .Role "mgr", resource := salesOrders, actions := [.Select],
    grant_option := false,
    row_filter := some
      { expression := "region = SESSION_CONTEXT(\x27user_region\x27)",
        session_context := none } }

/-- Row-filter scenario: store whose session context maps `user_region` to
`west`. -/
def mgrStateWest : EmulatorState :=
  { permissions := [mgrPerm], roles := [], tags := [],
    session_context := [("user_region", "west")] }

/-- Row-filter scenario: store whose session context maps `user_region` to
`east`. -/
def mgrStateEast : EmulatorState :=
  { permissions := [mgrPerm], roles := [], tags := [],
    session_context := [("user_region", "east")] }

/-- A permission whose row filter `x = '` drives `resolve_value` into the
panicking slice `value[1..value.len()-1]` (operand is the single quote
character). -/
def panicPerm : Permission :=
  { principal := .Role "r", resource := salesOrders, actions := [.Select],
    grant_option := false,
    row_filter := some { expression := "x = \x27", session_context := none } }

/-- Store holding only `panicPerm`. -/
def panicState : EmulatorState :=
  { permissions := [panicPerm], roles := [], tags := [],
    session_context := [] }

/-- Store for the diagnostic-variant counterexample: the only entry belongs
to `Role("other")` and carries the panicking filter, so a check for an
unrelated user short-circuits past the filter while the diagnostic variant
still evaluates it. -/
def reasonCxState : EmulatorState :=
  { permissions := [{ principal := .Role "other", resource := salesOrders,
                      actions := [.Select], grant_option := false,
                      row_filter := some { expression := "x = \x27",
                                           session_context := none } }],
    roles := [], tags := [], session_context := [] }

/-- A plain store used to witness the diagnostic-variant agreement: one
filterless permission for `Role("x")`. -/
def plainState : EmulatorState :=
  { permissions := [{ principal := .Role "x", resource := salesOrders,
                      actions := [.Select], grant_option := false,
                      row_filter := none }],
    roles := [], tags := [], session_context := [] }

/-- The evaluator of the crate's `test_inequality` unit test: empty session
context, row data `status = "active"`. -/
def statusEvaluator : ExpressionEvaluator :=
  { session_context := [], row_data := [(strData "status", strData "active")] }

/-- If every element kept by the inner filter is rejected by the outer
filter, the composition is empty. -/
theorem filter_filter_mem_nil {α : Type} (p q : α → Bool) (l : List α)
    (h : ∀ a, p a = true → q a = false) : (l.filter p).filter q = [] := by
  rw [List.filter_eq_nil_iff]
  intro a ha
  have hp := (List.mem_filter.mp ha).2
  simp [h a hp]

/-- C1.  The claim says `check_permission` is total and fail-closed: no
error ever escapes, evaluation failures of a row filter count as non-match.
The code violates this: on the store holding a grant whose row filter is
`x = '`, `resolve_value` takes the quoted-literal branch for the operand `'`
(it both starts and ends with a quote) and evaluates the Rust slice
`value[1..value.len()-1]` with the invalid range `1..0`, which panics and
propagates out of `check_permission` instead of being treated as a
non-match. -/
theorem c1_check_permission_panics_on_quote_filter :
    check_permission panicState (.Role "r") salesOrders .Select = none ∧
    evaluate_row_filter panicState
      { expression := "x = \x27", session_context := none } salesOrders =
      none := by
  exact ⟨by decide, by decide⟩

/-- C2.  Granting first removes every entry with the same
(principal, resource) pair and then appends the new permission, so after any
grant the entries for that pair are exactly the single granted permission
(actions, grant option and row filter all taken from the last grant).  This
holds for the emulator backend and for the core `PermissionEngine` alike. -/
theorem c2_grant_leaves_single_entry_per_pair :
    (∀ (st : EmulatorState) (permission : Permission),
      ((grant_permissions st permission).permissions.filter (fun p =>
        decide (p.principal = permission.principal) &&
        decide (p.resource = permission.resource))) = [permission]) ∧
    (∀ (eng : PermissionEngine) (permission : Permission),
      ((eng.grant_permission permission).permissions.filter (fun p =>
        decide (p.principal = permission.principal) &&
        decide (p.resource = permission.resource))) = [permission]) := by
  constructor
  · intro st permission
    have h1 := filter_filter_mem_nil
      (fun p => !(decide (p.principal = permission.principal) &&
        decide (p.resource = permission.resource)))
      (fun p => decide (p.principal = permission.principal) &&
        decide (p.resource = permission.resource))
      st.permissions (by intro a ha; rcases (by simpa using ha : _ ∨ _) with h | h <;> simp [h])
    simp only [grant_permissions, List.filter_append, h1, List.nil_append]
    simp [List.filter]
  · intro eng permission
    have h1 := filter_filter_mem_nil
      (fun p => !(decide (p.principal = permission.principal) &&
        decide (p.resource = permission.resource)))
      (fun p => decide (p.principal = permission.principal) &&
        decide (p.resource = permission.resource))
      eng.permissions (by intro a ha; rcases (by simpa using ha : _ ∨ _) with h | h <;> simp [h])
    simp only [PermissionEngine.grant_permission, List.filter_append, h1,
      List.nil_append]
    simp [List.filter]

/-- C10.  Revoking with an empty action list keeps every permission (the
intersection test over an empty list is false for each entry) and leaves the
whole store — permissions, roles, tags, session context — unchanged, both in
the emulator backend and in the core `PermissionEngine`. -/
theorem c10_revoke_empty_actions_is_identity :
    (∀ (st : EmulatorState) (principal : Principal) (resource : Resource),
      revoke_permissions st principal resource [] = st) ∧
    (∀ (eng : PermissionEngine) (principal : Principal)
      (resource : Resource),
      eng.revoke_permission principal resource [] = eng) := by
  constructor
  · intro st principal resource
    simp [revoke_permissions]
  · intro eng principal resource
    simp [PermissionEngine.revoke_permission]
/-- C4.  Full characterization of `Resource::is_covered_by`: a Table is
covered by a Table with the same database and table name (either column
subset is ignored) or by a Database named like its database, and by nothing
else; a Database is covered only by a Database with the same name; a
DataLocation with path `p1` is covered by a DataLocation with path `p2`
exactly when `p1` starts with `p2`; a TaggedResource neither covers nor is
covered by anything; in particular a grant on `sales.orders` never covers a
check on `Table(sales, customers)`. -/
theorem c4_coverage_characterization :
    (∀ db1 t1 c1 db2 t2 c2,
      (Resource.Table db1 t1 c1).is_covered_by (.Table db2 t2 c2) = true ↔
        db1 = db2 ∧ t1 = t2) ∧
    (∀ db t c n,
      (Resource.Table db t c).is_covered_by (.Database n) = true ↔ db = n) ∧
    (∀ db t c p,
      (Resource.Table db t c).is_covered_by (.DataLocation p) = false) ∧
    (∀ db t c tc,
      (Resource.Table db t c).is_covered_by (.TaggedResource tc) = false) ∧
    (∀ n1 n2,
      (Resource.Database n1).is_covered_by (.Database n2) = true ↔ n1 = n2) ∧
    (∀ n db t c,
      (Resource.Database n).is_covered_by (.Table db t c) = false) ∧
    (∀ n p, (Resource.Database n).is_covered_by (.DataLocation p) = false) ∧
    (∀ n tc,
      (Resource.Database n).is_covered_by (.TaggedResource tc) = false) ∧
    (∀ p1 p2,
      (Resource.DataLocation p1).is_covered_by (.DataLocation p2) = true ↔
        p2.data <+: p1.data) ∧
    (∀ p n, (Resource.DataLocation p).is_covered_by (.Database n) = false) ∧
    (∀ p db t c,
      (Resource.DataLocation p).is_covered_by (.Table db t c) = false) ∧
    (∀ p tc,
      (Resource.DataLocation p).is_covered_by (.TaggedResource tc) = false) ∧
    (∀ tc r, (Resource.TaggedResource tc).is_covered_by r = false) ∧
    (∀ tc r, Resource.is_covered_by r (.TaggedResource tc) = false) ∧
    (∀ c1 c2, (Resource.Table "sales" "customers" c1).is_covered_by
      (.Table "sales" "orders" c2) = false) := by
  refine ⟨?_, ?_, ?_, ?_, ?_, ?_, ?_, ?_, ?_, ?_, ?_, ?_, ?_, ?_, ?_⟩
  · intro db1 t1 c1 db2 t2 c2; simp [Resource.is_covered_by]
  · intro db t c n; simp [Resource.is_covered_by]
  · intro db t c p; rfl
  · intro db t c tc; rfl
  · intro n1 n2; simp [Resource.is_covered_by]
  · intro n db t c; rfl
  · intro n p; rfl
  · intro n tc; rfl
  · intro p1 p2
    simp only [Resource.is_covered_by, strStartsWith, Bool.or_eq_true,
      decide_eq_true_eq]
    constructor
    · rintro (h | rfl)
      · exact h
      · exact List.prefix_refl _
    · exact Or.inl
  · intro p n; rfl
  · intro p db t c; rfl
  · intro p tc; rfl
  · intro tc r; cases r <;> rfl
  · intro tc r; cases r <;> rfl
  · intro c1 c2; rfl

/-- C5.  Principal resolution in the emulator engine: like-kind principals
resolve by exact per-variant equality; the only cross-kind rule is that a
User request principal resolves against a stored Role exactly when the user
is a direct member of that role in the store; tagged principals never
resolve on either side, and no other cross-kind pair resolves.  Hence after
`createRole("eng")`, `addMember("eng","bob")` and a grant of Select on
`hr.employees` to `Role("eng")`, the check succeeds for `User("bob")` and
fails for `User("alice")`. -/
theorem c5_principal_resolution :
    (∀ st u r, principal_matches st (.User u) (.Role r) = true ↔
      ∃ members, mapGet st.roles r = some members ∧ u ∈ members) ∧
    (∀ st a b, principal_matches st (.User a) (.User b) = true ↔ a = b) ∧
    (∀ st a b, principal_matches st (.Role a) (.Role b) = true ↔ a = b) ∧
    (∀ st a b,
      principal_matches st (.SamlGroup a) (.SamlGroup b) = true ↔ a = b) ∧
    (∀ st a b, principal_matches st (.ExternalAccount a)
      (.ExternalAccount b) = true ↔ a = b) ∧
    (∀ st tk tv p,
      principal_matches st (.TaggedPrincipal tk tv) p = false) ∧
    (∀ st tk tv p,
      principal_matches st p (.TaggedPrincipal tk tv) = false) ∧
    (∀ st a b,
      principal_matches st (.User a) (.SamlGroup b) = false ∧
      principal_matches st (.User a) (.ExternalAccount b) = false ∧
      principal_matches st (.Role a) (.User b) = false ∧
      principal_matches st (.Role a) (.SamlGroup b) = false ∧
      principal_matches st (.Role a) (.ExternalAccount b) = false ∧
      principal_matches st (.SamlGroup a) (.User b) = false ∧
      principal_matches st (.SamlGroup a) (.Role b) = false ∧
      principal_matches st (.SamlGroup a) (.ExternalAccount b) = false ∧
      principal_matches st (.ExternalAccount a) (.User b) = false ∧
      principal_matches st (.ExternalAccount a) (.Role b) = false ∧
      principal_matches st (.ExternalAccount a) (.SamlGroup b) = false) ∧
    (add_user_to_role (create_role EmulatorState.new "eng") "bob" "eng" =
      .ok engBobState) ∧
    (check_permission engGrantedState (.User "bob") hrEmployees .Select =
      some true) ∧
    (check_permission engGrantedState (.User "alice") hrEmployees .Select =
      some false) := by
  refine ⟨?_, ?_, ?_, ?_, ?_, ?_, ?_, ?_, ?_, ?_, ?_⟩
  · intro st u r
    cases h : mapGet st.roles r <;>
      simp [principal_matches, h, List.any_eq_true]
  · intro st a b; simp [principal_matches]
  · intro st a b; simp [principal_matches]
  · intro st a b; simp [principal_matches]
  · intro st a b; simp [principal_matches]
  · intro st tk tv p; cases p <;> rfl
  · intro st tk tv p; cases p <;> rfl
  · intro st a b
    exact ⟨rfl, rfl, rfl, rfl, rfl, rfl, rfl, rfl, rfl, rfl, rfl⟩
  · rfl
  · decide
  · decide

/-- Three stacked filters are empty when every element kept by the innermost
filter is rejected by the outermost one. -/
theorem filter_filter_filter_mem_nil {α : Type} (p r q : α → Bool)
    (l : List α) (h : ∀ a, p a = true → q a = false) :
    ((l.filter p).filter r).filter q = [] := by
  rw [List.filter_eq_nil_iff]
  intro a ha
  have hp := (List.mem_filter.mp (List.mem_of_mem_filter ha)).2
  simp [h a hp]

/-- C3.  Revoke removes whole entries, not individual actions: an entry
survives `revoke(principal, resource, actions)` exactly when it is not a
(principal, resource) match whose action set intersects the given actions
(in the emulator backend and the core `PermissionEngine` alike); in
particular granting `[Select, Insert, Delete]` and then revoking `[Delete]`
for the same pair leaves no entry for that pair at all. -/
theorem c3_revoke_removes_whole_entries :
    (∀ (st : EmulatorState) (principal : Principal) (resource : Resource)
      (actions : List Action) (perm : Permission),
      perm ∈ (revoke_permissions st principal resource actions).permissions ↔
        perm ∈ st.permissions ∧
          ¬(perm.principal = principal ∧ perm.resource = resource ∧
            ∃ a ∈ actions, a ∈ perm.actions)) ∧
    (∀ (eng : PermissionEngine) (principal : Principal)
      (resource : Resource) (actions : List Action) (perm : Permission),
      perm ∈ (eng.revoke_permission principal resource actions).permissions ↔
        perm ∈ eng.permissions ∧
          ¬(perm.principal = principal ∧ perm.resource = resource ∧
            ∃ a ∈ actions, a ∈ perm.actions)) ∧
    (∀ (st : EmulatorState) (principal : Principal) (resource : Resource)
      (go : Bool) (rf : Option RowFilter),
      ((revoke_permissions
          (grant_permissions st
            { principal := principal, resource := resource,
              actions := [.Select, .Insert, .Delete], grant_option := go,
              row_filter := rf })
          principal resource [.Delete]).permissions.filter (fun p =>
        decide (p.principal = principal) &&
        decide (p.resource = resource))) = []) := by
  refine ⟨?_, ?_, ?_⟩
  · intro st principal resource actions perm
    simp only [revoke_permissions, List.mem_filter, List.any_eq_true]
    simp
    tauto
  · intro eng principal resource actions perm
    simp only [PermissionEngine.revoke_permission, List.mem_filter,
      List.any_eq_true]
    simp
    tauto
  · intro st principal resource go rf
    simp only [grant_permissions, revoke_permissions, List.filter_append]
    refine List.append_eq_nil.mpr ⟨?_, ?_⟩
    · exact filter_filter_filter_mem_nil _ _ _ st.permissions
        (by intro a ha
            rcases (by simpa using ha : _ ∨ _) with h | h <;> simp [h])
    · simp [List.filter, List.any_cons, List.any_nil]

/-- C3 witness: the grant-then-revoke conjunct instantiated on the empty
store, `Role("r")` and `sales.orders`. -/
theorem c3_witness :
    ((revoke_permissions
        (grant_permissions EmulatorState.new
          { principal := .Role "r", resource := salesOrders,
            actions := [.Select, .Insert, .Delete], grant_option := false,
            row_filter := none })
        (.Role "r") salesOrders [.Delete]).permissions.filter (fun p =>
      decide (p.principal = Principal.Role "r") &&
      decide (p.resource = salesOrders))) = [] :=
  c3_revoke_removes_whole_entries.2.2 EmulatorState.new (.Role "r")
    salesOrders false none

/-- C6.  The claim (with the spec and the crate's own `test_inequality`
unit test) says an expression containing `!=` is evaluated as a negated
equality, so `status != 'inactive'` over the row `status = "active"` yields
`true`.  The code disagrees: `evaluate_expression` tries the split on `=`
first, and every occurrence of `!=` contains `=`, so the `=` split fires
with left operand `status !` (resolved verbatim, it matches no row column)
and the expression evaluates to `Ok(false)`; the `!=` branch is
unreachable. -/
theorem c6_inequality_branch_unreachable :
    ExpressionEvaluator.evaluate_filter statusEvaluator
      { expression := "status != \x27inactive\x27",
        session_context := none } = .ok false ∧
    split_comparison (strData "status != \x27inactive\x27") (strData "=") =
      some (strData "status !", strData " \x27inactive\x27") :=
  ⟨by decide, by decide⟩

/-- C7.  Row-filter allow/deny by session context: with `Select` on
`sales.orders` granted to `Role("mgr")` under the filter
`region = SESSION_CONTEXT('user_region')`, and the engine's representative
row for `sales.orders` carrying `region = "west"`, the check passes when the
store's session context maps `user_region` to `west` and is denied when it
maps it to `east`. -/
theorem c7_row_filter_allow_deny_by_context :
    mapGet (create_sample_row_data salesOrders) "region" = some "west" ∧
    check_permission mgrStateWest (.Role "mgr") salesOrders .Select =
      some true ∧
    check_permission mgrStateEast (.Role "mgr") salesOrders .Select =
      some false :=
  ⟨by decide, by decide, by decide⟩

/-- C9.  Listing permissions for a principal filters with the exact
per-variant `Principal::matches`, never role membership: a permission stored
for a Role principal is never listed for a User principal, even though in
the very same store the check for that user can succeed through that very
permission by role indirection (the `eng`/`bob` scenario). -/
theorem c9_list_permissions_ignores_role_membership :
    (∀ (st : EmulatorState) (u r : String) (perm : Permission),
      perm.principal = Principal.Role r →
      perm ∉ list_permissions_for_principal st (.User u)) ∧
    check_permission engGrantedState (.User "bob") hrEmployees .Select =
      some true ∧
    list_permissions_for_principal engGrantedState (.User "bob") = [] := by
  refine ⟨?_, by decide, by decide⟩
  intro st u r perm hp hmem
  have h := (List.mem_filter.mp hmem).2
  rw [hp] at h
  simp [Principal.matches] at h

/-- C9 witness: the role-scenario permission itself is not listed for
`User("bob")`. -/
theorem c9_witness :
    engPerm ∉ list_permissions_for_principal engGrantedState (.User "bob") :=
  c9_list_permissions_ignores_role_membership.1 engGrantedState "bob" "eng"
    engPerm rfl

/-- When the row-filter evaluation of an entry returns normally (no panic),
`matches_permission` equals the conjunction of the four per-entry tests that
the diagnostic variant records. -/
theorem matches_permission_eq_conj (st : EmulatorState)
    (principal : Principal) (resource : Resource) (action : Action)
    (permission : Permission) (fm : Bool)
    (h : (match permission.row_filter with
          | some f => evaluate_row_filter st f resource
          | none => some true) = some fm) :
    matches_permission st principal resource action permission =
      some (principal_matches st principal permission.principal &&
        permission.actions.any (fun a => decide (a = action)) &&
        resource.is_covered_by permission.resource && fm) := by
  unfold matches_permission
  cases hpm : principal_matches st principal permission.principal
  · simp [hpm]
  · cases ham : permission.actions.any (fun a => decide (a = action))
    · simp [hpm, ham]
    · cases hrm : resource.is_covered_by permission.resource
      · simp [hpm, ham, hrm]
      · simp [hpm, ham, hrm]
        exact h

/-- Whenever the diagnostic scan over a permission list returns normally,
its boolean component equals the plain scan's answer on the same list. -/
theorem with_reason_list_agrees (st : EmulatorState) (principal : Principal)
    (resource : Resource) (action : Action) :
    ∀ (perms : List Permission) (acc : List (Bool × Bool × Bool × Bool))
      (b : Bool) (t : List (Bool × Bool × Bool × Bool)),
      check_permission_with_reason_list st principal resource action perms
        acc = some (b, t) →
      check_permission_list st principal resource action perms = some b := by
  intro perms
  induction perms with
  | nil =>
    intro acc b t h
    simp only [check_permission_with_reason_list] at h
    injection h with h1
    injection h1 with h2 h3
    rw [← h2]
    rfl
  | cons permission rest ih =>
    intro acc b t h
    simp only [check_permission_with_reason_list] at h
    cases hrf : (match permission.row_filter with
                 | some f => evaluate_row_filter st f resource
                 | none => some true) with
    | none => rw [hrf] at h; exact absurd h (by simp)
    | some fm =>
      rw [hrf] at h
      dsimp only at h
      simp only [check_permission_list]
      rw [matches_permission_eq_conj st principal resource action
        permission fm hrf]
      cases hcond : (principal_matches st principal permission.principal &&
        permission.actions.any (fun a => decide (a = action)) &&
        resource.is_covered_by permission.resource && fm)
      · rw [hcond] at h
        rw [if_neg Bool.false_ne_true] at h
        exact ih _ b t h
      · rw [hcond] at h
        rw [if_pos rfl] at h
        injection h with h1
        injection h1 with h2 h3
        rw [← h2]

/-- C8 counterexample.  The claim — the boolean component of
`check_permission_with_reason` equals `check_permission` for every store —
fails: the diagnostic variant computes the row-filter match of every entry
before testing the principal, so on a store whose only entry belongs to
`Role("other")` and carries the panicking filter `x = '`, a check for
`User("u")` returns `false` from `check_permission` (the principal test
short-circuits past the filter) while `check_permission_with_reason`
panics. -/
theorem c8_reason_variant_diverges :
    check_permission_with_reason reasonCxState (.User "u") salesOrders
      .Select = none ∧
    check_permission reasonCxState (.User "u") salesOrders .Select =
      some false :=
  ⟨by decide, by decide⟩

/-- C8 amended.  Whenever the diagnostic variant returns normally, its
boolean component equals `check_permission`; the two can differ only when
the diagnostic variant panics on a row filter of an entry that
`check_permission` skips without evaluating. -/
theorem c8_reason_bool_matches_check (st : EmulatorState)
    (principal : Principal) (resource : Resource) (action : Action)
    (b : Bool) (t : List (Bool × Bool × Bool × Bool))
    (h : check_permission_with_reason st principal resource action =
      some (b, t)) :
    check_permission st principal resource action = some b :=
  with_reason_list_agrees st principal resource action st.permissions [] b t
    h

/-- C8 witness: on the plain one-entry store the diagnostic variant returns
normally and the agreement theorem yields the check's answer. -/
theorem c8_witness :
    check_permission plainState (.Role "x") salesOrders .Select =
      some true :=
  c8_reason_bool_matches_check plainState (.Role "x") salesOrders .Select
    true [(true, true, true, true)] (by decide)

end LakeSql
